import Mathlib

/-!
Verification development for the RUST_DCS telemetry bridge
(`backend/src/serial.rs` and `backend/src/main.rs`).

Text is modelled as `List Char`.  Rust's `u64` is modelled as `Nat` with an
explicit `< 2 ^ 64` bound where the source parses or casts; `f32` / `f64`
values are modelled as exact rationals (`ℚ`) and their `from_str` parsers as a
decimal-grammar parser over `ℚ` (sign, integer digits, optional fractional
digits — the forms exchanged by this system; exponent forms and rounding of
the binary formats are not modelled).  Rust's `str::trim` is modelled with
`Char.isWhitespace` (ASCII whitespace).
-/

set_option autoImplicit false

namespace RustDcs

/-- Model of `str::split(sep)`: splitting an empty string yields one empty
piece, and every separator occurrence starts a new piece. -/
def splitOnChar (sep : Char) : List Char → List (List Char)
  | [] => [[]]
  | c :: cs =>
    match splitOnChar sep cs with
    | [] => [[]]
    | t :: ts => if c = sep then [] :: t :: ts else (c :: t) :: ts

/-- Model of `str::strip_prefix`: `dropTag? tag l` returns the remainder of
`l` after `tag` when `tag` is a prefix of `l`, and `none` otherwise. -/
def dropTag? : List Char → List Char → Option (List Char)
  | [], l => some l
  | _ :: _, [] => none
  | p :: ps, c :: cs => if p = c then dropTag? ps cs else none

/-- Model of `str::trim`: drop whitespace from both ends. -/
def trimCL (l : List Char) : List Char :=
  ((l.dropWhile Char.isWhitespace).reverse.dropWhile Char.isWhitespace).reverse

/-- Strip one trailing carriage return, as `str::lines` does per line. -/
def stripCR (l : List Char) : List Char :=
  if l.getLast? = some '\r' then l.dropLast else l

/-- Model of `str::lines`: split on newline, drop the trailing empty piece
produced by a final newline (or by emptiness), strip one trailing CR. -/
def rustLines (s : List Char) : List (List Char) :=
  let parts := splitOnChar '\n' s
  (if parts.getLast? = some ([] : List Char) then parts.dropLast else parts).map stripCR

/-- Value of a list of decimal digit characters. -/
def decDigitsVal (l : List Char) : Nat :=
  l.foldl (fun a c => a * 10 + (c.toNat - ('0').toNat)) 0

/-- Model of `str::parse::<u64>()`: optional leading `+`, one or more decimal
digits, value below `2 ^ 64`. -/
def parseU64 (s : List Char) : Option Nat :=
  let s1 := match s with
    | '+' :: r => r
    | _ => s
  if s1 ≠ [] ∧ s1.all Char.isDigit then
    let n := decDigitsVal s1
    if n < 2 ^ 64 then some n else none
  else none

/-- Model of `str::parse` for `f32` / `f64` on plain decimal forms: optional
sign, integer digits, optional `.` and fraction digits, at least one digit.
The value `±(ip . fp)` is built as the exact rational
`± (ip * 10 ^ |fp| + fp) / 10 ^ |fp|` (via `Rat.divInt`, which keeps the
construction kernel-computable). -/
def parseDecQ (s : List Char) : Option ℚ :=
  let sgn : Int := match s with
    | '-' :: _ => -1
    | _ => 1
  let s1 := match s with
    | '-' :: r => r
    | '+' :: r => r
    | _ => s
  let ip := s1.takeWhile Char.isDigit
  let rest := s1.drop ip.length
  match rest with
  | [] => if ip = [] then none else some (Rat.divInt (sgn * (decDigitsVal ip : Int)) 1)
  | '.' :: fp =>
    if fp.all Char.isDigit ∧ (ip ≠ [] ∨ fp ≠ []) then
      some (Rat.divInt (sgn * ((decDigitsVal ip * 10 ^ fp.length + decDigitsVal fp : Nat) : Int))
        ((10 ^ fp.length : Nat) : Int))
    else none
  | _ => none

/-- `serial.rs` `SensorData`: one parsed sensor reading with the optional
actuator echo fields. -/
structure SensorData where
  timestamp : Nat
  temperature : ℚ
  humidity : ℚ
  motor_status : Option Bool
  pump_status : Option Bool
  deriving DecidableEq

/-- The tag of a sensor line, `"SENSOR_DATA|"`. -/
def sensorTag : List Char :=
  ['S', 'E', 'N', 'S', 'O', 'R', '_', 'D', 'A', 'T', 'A', '|']

/-- The tag of a relay-status line, `"RELAY_STATUS|"`. -/
def relayTag : List Char :=
  ['R', 'E', 'L', 'A', 'Y', '_', 'S', 'T', 'A', 'T', 'U', 'S', '|']

/-- The `"motor:"` field tag inside a relay-status line. -/
def motorTag : List Char := ['m', 'o', 't', 'o', 'r', ':']

/-- The `"pump:"` field tag inside a relay-status line. -/
def pumpTag : List Char := ['p', 'u', 'm', 'p', ':']

/-- The `"ON"` sentinel. -/
def onTok : List Char := ['O', 'N']

/-- `SerialMonitor::parse_sensor_data`: strip `"SENSOR_DATA|"`, split the rest
on `|`, require exactly three pieces parsing as `u64`, `f32`, `f32`; the two
actuator fields start absent. -/
def parse_sensor_data (line : List Char) : Option SensorData :=
  match dropTag? sensorTag line with
  | some stripped =>
    match splitOnChar '|' stripped with
    | [p0, p1, p2] =>
      match parseU64 p0, parseDecQ p1, parseDecQ p2 with
      | some timestamp, some temperature, some humidity =>
        some ⟨timestamp, temperature, humidity, none, none⟩
      | _, _, _ => none
    | _ => none
  | none => none

/-- `SerialMonitor::parse_relay_status`: strip `"RELAY_STATUS|"`, split on
`|`, require exactly two pieces; each piece is stripped of its positional tag
(`"motor:"` first, `"pump:"` second, empty fallback) and compared with the
exact `"ON"` sentinel. -/
def parse_relay_status (line : List Char) : Option (Bool × Bool) :=
  match dropTag? relayTag line with
  | some stripped =>
    match splitOnChar '|' stripped with
    | [p0, p1] =>
      let motor_part := (dropTag? motorTag p0).getD []
      let pump_part := (dropTag? pumpTag p1).getD []
      some (motor_part == onTok, pump_part == onTok)
    | _ => none
  | none => none

/-- `serial.rs` `RelayStatus`: the last-known actuator flags, `Default` being
both unknown. -/
structure RelayStatus where
  motor : Option Bool
  pump : Option Bool
  deriving DecidableEq

/-- The mutable state of `SerialMonitor::read_loop`: the last-known relay
status and the at-most-one pending sensor reading. -/
structure LoopState where
  relay : RelayStatus
  pending : Option SensorData
  deriving DecidableEq

/-- The state `read_loop` starts from: `RelayStatus::default()` and no pending
reading. -/
def initLoopState : LoopState := ⟨⟨none, none⟩, none⟩

/-- Processing of one read line inside `read_loop` (the `Ok(_)` arm): trim,
try `parse_relay_status` first (updating the last-known status and flushing a
pending reading with the refreshed status), then try `parse_sensor_data`
(attaching the current status, emitting immediately and becoming the pending
reading).  Returns the new state and the records handed to `on_data`, in
order.  Logging, and the fact that an `on_data` error is only logged, are not
modelled: the emission happens either way. -/
def processLine (st : LoopState) (raw : List Char) : LoopState × List SensorData :=
  let trimmed := trimCL raw
  let stOut : LoopState × List SensorData :=
    match parse_relay_status trimmed with
    | some mp =>
      let relay' : RelayStatus := ⟨some mp.1, some mp.2⟩
      match st.pending with
      | some sd =>
        (⟨relay', none⟩, [{ sd with motor_status := some mp.1, pump_status := some mp.2 }])
      | none => (⟨relay', st.pending⟩, [])
    | none => (st, [])
  match parse_sensor_data trimmed with
  | some sd =>
    let sd' := { sd with motor_status := stOut.1.relay.motor, pump_status := stOut.1.relay.pump }
    (⟨stOut.1.relay, some sd'⟩, stOut.2 ++ [sd'])
  | none => stOut

/-- One result of `BufReader::read_line` as consumed by `read_loop`:
a line (`Ok(n)` with `n > 0`), end of input (`Ok(0)`), or an I/O error
(`Err(e)`).  A read that hits the port's 15-second timeout is delivered by the
I/O layer as an error (kind `TimedOut`); the flag records whether the error is
such a timeout — the source's `Err(e)` arm never inspects the kind. -/
inductive ReadEvent where
  | line (raw : List Char)
  | eof
  | ioFailure (timedOut : Bool)
  deriving DecidableEq

/-- `SerialMonitor::read_loop` over a finite prefix of read results: `Ok(0)`
sleeps briefly and continues on the same connection, `Ok(n)` processes the
line, `Err(e)` returns the error — upon which `start_monitoring` drops (i.e.
closes) the port and reopens it after a fixed delay.  Returns the final state,
all emitted records, and whether the loop returned with an error (closing the
connection). -/
def readLoop (st : LoopState) : List ReadEvent → LoopState × List SensorData × Bool
  | [] => (st, [], false)
  | ReadEvent.eof :: rest => readLoop st rest
  | ReadEvent.line raw :: rest =>
    let p := processLine st raw
    let r := readLoop p.1 rest
    (r.1, p.2 ++ r.2.1, r.2.2)
  | ReadEvent.ioFailure _ :: _ => (st, [], true)

/-- The fixed reconnection delay, in seconds, that `start_monitoring` sleeps
after `read_loop` returns or an open fails. -/
def retryDelaySecs : Nat := 5

/-- `main.rs` `LastRow`: the per-cycle sensor last-value fields, each
independently optional. -/
structure LastRow where
  temp : Option ℚ
  hum : Option ℚ
  exhaust_fan_status : Option ℚ
  pump_status : Option ℚ
  deriving DecidableEq

/-- `main.rs` `DwsimRow`: the per-cycle optional setpoint temperature. -/
structure DwsimRow where
  temp : Option ℚ
  deriving DecidableEq

/-- A JSON value as placed into the telemetry payload: a float (`json!(t)` on
an `f64`) or an integer (`json!(p as i32)`, `json!(fan_on)`). -/
inductive JVal where
  | num (q : ℚ)
  | int (n : Int)
  deriving DecidableEq

/-- The telemetry payload, modelled as the association list of inserted
key/value pairs in insertion order (all keys the loop inserts are distinct, so
this carries the same information as the `serde_json::Map`). -/
abbrev Payload := List (String × JVal)

/-- Truncation toward zero, the rounding of Rust's float-to-int `as` casts. -/
def truncQ (q : ℚ) : Int := if 0 ≤ q then ⌊q⌋ else ⌈q⌉

/-- Rust's saturating `f64 as i32` cast. -/
def i32OfF64 (q : ℚ) : Int := max (-(2 ^ 31)) (min (2 ^ 31 - 1) (truncQ q))

/-- One optional payload entry: the `if let Some(x) = o { payload.insert(k, f x) }`
pattern of the bridge loop. -/
def optEntry (k : String) (f : ℚ → JVal) (o : Option ℚ) : Payload :=
  match o with
  | some x => [(k, f x)]
  | none => []

/-- The fan block of the bridge loop: only when both the sensor temperature
and the setpoint temperature are present, insert
`exhaust_fan_status = (sensor_temp > setpoint_temp)` as 1/0 and echo the
setpoint under `dwsim_temperature_setpoint`. -/
def fanEntries (sensorTemp setpointTemp : Option ℚ) : Payload :=
  match sensorTemp, setpointTemp with
  | some s, some t =>
    [(("exhaust_fan_status"), JVal.int (if s > t then 1 else 0)),
     (("dwsim_temperature_setpoint"), JVal.num t)]
  | _, _ => []

/-- The payload assembled by one bridge-loop iteration from the two query
results (`main.rs` lines 198–232): the four optional raw fields, then the fan
block, then the derived pump status `humidity < 60.0` as 1/0 when humidity is
present. -/
def buildPayload (sensor_data : LastRow) (dwsim_data : DwsimRow) : Payload :=
  optEntry ("sht20_temperature") JVal.num sensor_data.temp ++
  optEntry ("sht20_humidity") JVal.num sensor_data.hum ++
  optEntry ("pump_status") (fun p => JVal.int (i32OfF64 p)) sensor_data.pump_status ++
  optEntry ("dwsim_temperature") JVal.num dwsim_data.temp ++
  fanEntries sensor_data.temp dwsim_data.temp ++
  optEntry ("pump_calculated_status") (fun h => JVal.int (if h < 60 then 1 else 0)) sensor_data.hum

/-- One iteration of the bridge loop on the results of the two queries.  Both
query calls carry the `?` operator (`get_last_data(..).await?`,
`get_dwsim_temperature(..).await?`), so an error result of either is returned
from `main` before any payload is assembled.  On success the payload is built
and published unless empty (`ok none` models the skipped empty publication). -/
def bridgeCycle (sensorRes : Except String LastRow) (dwsimRes : Except String DwsimRow) :
    Except String (Option Payload) :=
  match sensorRes with
  | Except.error e => Except.error e
  | Except.ok sensor_data =>
    match dwsimRes with
    | Except.error e => Except.error e
    | Except.ok dwsim_data =>
      let payload := buildPayload sensor_data dwsim_data
      Except.ok (if payload = [] then none else some payload)

/-- The timestamp placed on the point written by `write_sensor_to_influx`:
the record's own timestamp if it is at least `1_000_000_000_000_000_000`,
otherwise the current system time in nanoseconds (cast `as u64`). -/
def influxTimestampNs (ts now : Nat) : Nat :=
  if ts < 1000000000000000000 then now % 2 ^ 64 else ts

/-- The loop state of `parse_influx_csv`: the two column indices, whether the
header row has been seen, and the accumulated output row. -/
structure CsvState where
  idx_field : Option Nat
  idx_value : Option Nat
  header_seen : Bool
  out : LastRow
  deriving DecidableEq

/-- The name of the field-name column, `"_field"`. -/
def fieldColName : List Char := ['_', 'f', 'i', 'e', 'l', 'd']

/-- The name of the value column, `"_value"`. -/
def valueColName : List Char := ['_', 'v', 'a', 'l', 'u', 'e']

/-- The header scan of `parse_influx_csv`: the last column equal to `target`
wins, starting from the current index. -/
def findColIdx (target : List Char) (init : Option Nat) (cols : List (List Char)) : Option Nat :=
  (cols.enum.foldl (fun acc ic => if ic.2 = target then some ic.1 else acc) init)

/-- The fixed name→slot mapping of `parse_influx_csv`'s data-row match: a row
assigns into the output only when its value parsed and its trimmed field name
is one of the four known names; anything else leaves the output unchanged. -/
def assignField (out : LastRow) (fname : List Char) (val : Option ℚ) : LastRow :=
  match val with
  | some v =>
    if fname = ['t', 'e', 'm', 'p', 'e', 'r', 'a', 't', 'u', 'r', 'e'] then
      { out with temp := some v }
    else if fname = ['h', 'u', 'm', 'i', 'd', 'i', 't', 'y'] then
      { out with hum := some v }
    else if fname = ['e', 'x', 'h', 'a', 'u', 's', 't', '_', 'f', 'a', 'n', '_',
        's', 't', 'a', 't', 'u', 's'] then
      { out with exhaust_fan_status := some v }
    else if fname = ['p', 'u', 'm', 'p', '_', 's', 't', 'a', 't', 'u', 's'] then
      { out with pump_status := some v }
    else out
  | none => out

/-- One line of `parse_influx_csv`'s loop: skip `#` comment lines; before the
header, a line containing a `_field` or `_value` column becomes the header and
fixes the column indices; after the header, a data row wide enough for both
indices has its named field and parsed value assigned via the fixed
mapping. -/
def csvStep (st : CsvState) (line : List Char) : CsvState :=
  if line.head? = some '#' then st
  else
    let cols := splitOnChar ',' line
    if st.header_seen = false ∧ (fieldColName ∈ cols ∨ valueColName ∈ cols) then
      { idx_field := findColIdx fieldColName st.idx_field cols,
        idx_value := findColIdx valueColName st.idx_value cols,
        header_seen := true,
        out := st.out }
    else if st.header_seen = true then
      match st.idx_field, st.idx_value with
      | some i_f, some i_v =>
        match cols.get? i_f, cols.get? i_v with
        | some fcol, some vcol =>
          { st with out := assignField st.out (trimCL fcol) (parseDecQ (trimCL vcol)) }
        | _, _ => st
      | _, _ => st
    else st

/-- The state `parse_influx_csv` starts from: no indices, no header seen,
`LastRow::default()`. -/
def initCsvState : CsvState := ⟨none, none, false, ⟨none, none, none, none⟩⟩

/-- `main.rs` `parse_influx_csv`: fold the line steps over the text's lines
and return the accumulated row.  Total by construction — malformed input can
only leave fields absent. -/
def parse_influx_csv (csv : List Char) : LastRow :=
  ((rustLines csv).foldl csvStep initCsvState).out

/-- Whether a line would be accepted as the header row by `parse_influx_csv`:
not a `#` comment, and containing a `_field` or `_value` column (the source's
trigger condition). -/
def isHeaderRow (line : List Char) : Bool :=
  if line.head? = some '#' then false
  else decide (fieldColName ∈ splitOnChar ',' line ∨ valueColName ∈ splitOnChar ',' line)

/-- Whether a line contains both the `_field` and the `_value` column — a
header row in the sense of the specification. -/
def hasBothCols (line : List Char) : Bool :=
  decide (fieldColName ∈ splitOnChar ',' line ∧ valueColName ∈ splitOnChar ',' line)

/-- Reachability invariant of the CSV loop when no line carries both header
columns: the output stays all-absent, and the column indices can never both
be known. -/
def CsvInv (st : CsvState) : Prop :=
  st.out = ⟨none, none, none, none⟩ ∧
  ((st.header_seen = false ∧ st.idx_field = none ∧ st.idx_value = none) ∨
   (st.header_seen = true ∧ (st.idx_field = none ∨ st.idx_value = none)))

/-! Helper lemmas about the text utilities. -/

theorem dropTag_eq_some_iff (p : List Char) :
    ∀ l r : List Char, dropTag? p l = some r ↔ l = p ++ r := by
  induction p with
  | nil =>
    intro l r
    simp [dropTag?]
  | cons a ps ih =>
    intro l r
    cases l with
    | nil => simp [dropTag?]
    | cons c cs =>
      by_cases h : a = c
      · subst h
        simp [dropTag?, ih]
      · simp [dropTag?, h]
        intro h'
        exact absurd h'.symm h

theorem dropTag_append (p r : List Char) : dropTag? p (p ++ r) = some r :=
  (dropTag_eq_some_iff p (p ++ r) r).mpr rfl

theorem splitOnChar_ne_nil (sep : Char) (l : List Char) : splitOnChar sep l ≠ [] := by
  cases l with
  | nil => simp [splitOnChar]
  | cons c cs =>
    simp only [splitOnChar]
    rcases h : splitOnChar sep cs with _ | ⟨t, ts⟩
    · simp
    · by_cases hc : c = sep <;> simp [hc]

theorem splitOnChar_of_not_mem (sep : Char) (l : List Char) (h : sep ∉ l) :
    splitOnChar sep l = [l] := by
  induction l with
  | nil => rfl
  | cons c cs ih =>
    have hc : c ≠ sep := fun hh => h (hh ▸ List.mem_cons_self c cs)
    have hcs : sep ∉ cs := fun hh => h (List.mem_cons_of_mem c hh)
    simp [splitOnChar, ih hcs, hc]

theorem splitOnChar_append_sep (sep : Char) (a b : List Char) (h : sep ∉ a) :
    splitOnChar sep (a ++ sep :: b) = a :: splitOnChar sep b := by
  induction a with
  | nil =>
    simp only [List.nil_append, splitOnChar]
    rcases hb : splitOnChar sep b with _ | ⟨t, ts⟩
    · exact absurd hb (splitOnChar_ne_nil sep b)
    · simp
  | cons c cs ih =>
    have hc : c ≠ sep := fun hh => h (hh ▸ List.mem_cons_self c cs)
    have hcs : sep ∉ cs := fun hh => h (List.mem_cons_of_mem c hh)
    rw [List.cons_append]
    simp only [splitOnChar]
    rw [ih hcs]
    simp [hc]

theorem trimCL_eq_self (l : List Char) (h : ∀ c ∈ l, c.isWhitespace = false) :
    trimCL l = l := by
  have h1 : l.dropWhile Char.isWhitespace = l := by
    cases l with
    | nil => rfl
    | cons c cs => simp [List.dropWhile_cons, h c (List.mem_cons_self c cs)]
  have h2 : l.reverse.dropWhile Char.isWhitespace = l.reverse := by
    cases hr : l.reverse with
    | nil => rfl
    | cons c cs =>
      have hc : c ∈ l := by
        have : c ∈ l.reverse := hr ▸ List.mem_cons_self c cs
        simpa using this
      simp [List.dropWhile_cons, h c hc]
  simp [trimCL, h1, h2]

/-! Helper lemmas about the line parsers. -/

theorem parse_sensor_line_eq (ta xa ya : List Char) (t : Nat) (x y : ℚ)
    (hta : '|' ∉ ta) (hxa : '|' ∉ xa) (hya : '|' ∉ ya)
    (ht : parseU64 ta = some t) (hx : parseDecQ xa = some x) (hy : parseDecQ ya = some y) :
    parse_sensor_data (sensorTag ++ (ta ++ '|' :: (xa ++ '|' :: ya))) =
      some ⟨t, x, y, none, none⟩ := by
  simp only [parse_sensor_data, dropTag_append]
  rw [splitOnChar_append_sep _ _ _ hta, splitOnChar_append_sep _ _ _ hxa,
    splitOnChar_of_not_mem _ _ hya]
  simp [ht, hx, hy]

theorem parse_sensor_data_none_of_no_tag (l : List Char)
    (h : dropTag? sensorTag l = none) : parse_sensor_data l = none := by
  rw [parse_sensor_data, h]

theorem parse_relay_status_none_of_no_tag (l : List Char)
    (h : dropTag? relayTag l = none) : parse_relay_status l = none := by
  rw [parse_relay_status, h]

theorem dropTag_relay_sensor (rest : List Char) :
    dropTag? relayTag (sensorTag ++ rest) = none := by
  rw [sensorTag, relayTag]
  simp [dropTag?]

theorem dropTag_sensor_relay (rest : List Char) :
    dropTag? sensorTag (relayTag ++ rest) = none := by
  rw [sensorTag, relayTag]
  simp [dropTag?]

theorem getD_dropTag_beq (tag piece : List Char) :
    ((dropTag? tag piece).getD [] == onTok) = (piece == tag ++ onTok) := by
  rcases h : dropTag? tag piece with _ | r
  · have hne : piece ≠ tag ++ onTok := by
      intro he
      rw [he, dropTag_append] at h
      cases h
    have h1 : ((([] : List Char)) == onTok) = false := by decide
    simp only [Option.getD_none, h1]
    rw [Bool.eq_iff_iff]
    simp [hne]
  · have he : piece = tag ++ r := (dropTag_eq_some_iff tag piece r).mp h
    subst he
    simp only [Option.getD_some]
    rw [Bool.eq_iff_iff]
    simp

theorem parse_relay_line_eq (a b : List Char) (ha : '|' ∉ a) (hb : '|' ∉ b) :
    parse_relay_status (relayTag ++ (a ++ '|' :: b)) =
      some (a == motorTag ++ onTok, b == pumpTag ++ onTok) := by
  simp only [parse_relay_status, dropTag_append]
  rw [splitOnChar_append_sep _ _ _ ha, splitOnChar_of_not_mem _ _ hb]
  simp [getD_dropTag_beq]

/-! Helper lemmas about the read loop. -/

theorem processLine_skip (st : LoopState) (raw : List Char)
    (h1 : parse_relay_status (trimCL raw) = none)
    (h2 : parse_sensor_data (trimCL raw) = none) :
    processLine st raw = (st, []) := by
  simp [processLine, h1, h2]

theorem processLine_sensor (st : LoopState) (raw : List Char) (sd : SensorData)
    (h1 : parse_relay_status (trimCL raw) = none)
    (h2 : parse_sensor_data (trimCL raw) = some sd) :
    processLine st raw =
      (⟨st.relay, some { sd with motor_status := st.relay.motor, pump_status := st.relay.pump }⟩,
       [{ sd with motor_status := st.relay.motor, pump_status := st.relay.pump }]) := by
  simp [processLine, h1, h2]

theorem processLine_relay_pending (st : LoopState) (raw : List Char) (m p : Bool)
    (sd : SensorData)
    (h1 : parse_relay_status (trimCL raw) = some (m, p))
    (hp : st.pending = some sd)
    (h2 : parse_sensor_data (trimCL raw) = none) :
    processLine st raw =
      (⟨⟨some m, some p⟩, none⟩, [{ sd with motor_status := some m, pump_status := some p }]) := by
  simp [processLine, h1, h2, hp]

theorem readLoop_nil (st : LoopState) : readLoop st [] = (st, [], false) := rfl

theorem readLoop_eof (st : LoopState) (rest : List ReadEvent) :
    readLoop st (ReadEvent.eof :: rest) = readLoop st rest := rfl

theorem readLoop_ioFailure (st : LoopState) (b : Bool) (rest : List ReadEvent) :
    readLoop st (ReadEvent.ioFailure b :: rest) = (st, [], true) := rfl

theorem readLoop_line (st : LoopState) (raw : List Char) (rest : List ReadEvent) :
    readLoop st (ReadEvent.line raw :: rest) =
      ((readLoop (processLine st raw).1 rest).1,
       (processLine st raw).2 ++ (readLoop (processLine st raw).1 rest).2.1,
       (readLoop (processLine st raw).1 rest).2.2) := rfl

theorem trimCL_append_of_no_ws (tag rest : List Char)
    (htag : ∀ c ∈ tag, c.isWhitespace = false)
    (hrest : ∀ c ∈ rest, c.isWhitespace = false) :
    trimCL (tag ++ rest) = tag ++ rest := by
  refine trimCL_eq_self _ ?_
  intro c hc
  rcases List.mem_append.mp hc with h | h
  · exact htag c h
  · exact hrest c h

/-! Claim theorems for the serial side. -/

/-- C3: for every well-formed line `SENSOR_DATA|t|x|y` whose three
pipe-delimited tokens parse as `u64`, `f32`, `f32`, the parser returns a
record with timestamp `t`, temperature `x`, humidity `y`, and both actuator
echo fields absent. -/
theorem sensor_line_parses_to_record (ta xa ya : List Char) (t : Nat) (x y : ℚ)
    (hta : '|' ∉ ta) (hxa : '|' ∉ xa) (hya : '|' ∉ ya)
    (ht : parseU64 ta = some t) (hx : parseDecQ xa = some x) (hy : parseDecQ ya = some y) :
    parse_sensor_data (sensorTag ++ (ta ++ '|' :: (xa ++ '|' :: ya))) =
      some ⟨t, x, y, none, none⟩ :=
  parse_sensor_line_eq ta xa ya t x y hta hxa hya ht hx hy

/-- Witness for C3 at the concrete line `SENSOR_DATA|123|26.0|55.0`. -/
theorem sensor_line_parses_to_record_witness :
    parse_sensor_data (sensorTag ++
        ((('1' : Char) :: '2' :: ['3']) ++ '|' :: (('2' :: '6' :: '.' :: ['0']) ++ '|' ::
          ('5' :: '5' :: '.' :: ['0'])))) =
      some ⟨123, 26, 55, none, none⟩ :=
  sensor_line_parses_to_record ('1' :: '2' :: ['3']) ('2' :: '6' :: '.' :: ['0'])
    ('5' :: '5' :: '.' :: ['0']) 123 26 55 (by decide) (by decide) (by decide)
    (by decide) (by decide) (by decide)

/-- C10: the relay-status parser is positional — every arity-2 line
`RELAY_STATUS|a|b` yields a record whose motor flag is set exactly when token
`a` is literally `motor:ON` and whose pump flag is set exactly when token `b`
is literally `pump:ON`; in particular the two fields in swapped order yield
both flags OFF rather than no record. -/
theorem relay_status_positional :
    (∀ a b : List Char, '|' ∉ a → '|' ∉ b →
      parse_relay_status (relayTag ++ (a ++ '|' :: b)) =
        some (a == motorTag ++ onTok, b == pumpTag ++ onTok)) ∧
    parse_relay_status (("RELAY_STATUS|pump:ON|motor:ON").toList) = some (false, false) ∧
    parse_relay_status (("RELAY_STATUS|motor:ON|pump:ON").toList) = some (true, true) ∧
    parse_relay_status (("RELAY_STATUS|motor:OFF|pump:ON").toList) = some (false, true) :=
  ⟨fun a b ha hb => parse_relay_line_eq a b ha hb, by decide, by decide, by decide⟩

/-- Witness for C10 at the concrete line `RELAY_STATUS|motor:ON|pump:OFF`. -/
theorem relay_status_positional_witness :
    parse_relay_status (relayTag ++
        ((("motor:ON").toList) ++ '|' :: (("pump:OFF").toList))) =
      some ((("motor:ON").toList) == motorTag ++ onTok,
        (("pump:OFF").toList) == pumpTag ++ onTok) :=
  relay_status_positional.1 _ _ (by decide) (by decide)

/-- C9: the point written by `write_sensor_to_influx` keeps the record's
timestamp exactly when it is at least `1_000_000_000_000_000_000` ns;
below the threshold the current system time is used instead. -/
theorem influx_timestamp_threshold (ts now : Nat) :
    (1000000000000000000 ≤ ts → influxTimestampNs ts now = ts) ∧
    (ts < 1000000000000000000 → now < 2 ^ 64 → influxTimestampNs ts now = now) := by
  constructor
  · intro h
    simp [influxTimestampNs, Nat.not_lt.mpr h]
  · intro h hn
    simp only [influxTimestampNs, if_pos h]
    exact Nat.mod_eq_of_lt hn

/-- Witness for C9 at the threshold itself and at a small timestamp. -/
theorem influx_timestamp_threshold_witness :
    influxTimestampNs 1000000000000000000 42 = 1000000000000000000 ∧
    influxTimestampNs 999 42 = 42 :=
  ⟨(influx_timestamp_threshold 1000000000000000000 42).1 (by decide),
   (influx_timestamp_threshold 999 42).2 (by decide) (by decide)⟩

/-- C2 counterexample: a read that times out is delivered to the `Err(e)` arm
(the source never inspects the error kind), so `read_loop` returns and the
connection is closed — refuting that a timed-out read never closes it. -/
theorem read_timeout_closes_cex :
    readLoop initLoopState [ReadEvent.ioFailure true] = (initLoopState, [], true) := rfl

/-- C2 amended: a zero-length (`Ok(0)`) read never closes the connection —
the loop sleeps briefly and continues on the same connection; any read
error — a timed-out read included, since the I/O layer delivers timeouts as
errors and the loop does not distinguish them — makes `read_loop` return,
closing the connection, which `start_monitoring` reopens after the fixed
5-second delay. -/
theorem read_loop_error_discipline :
    (∀ (st : LoopState) (rest : List ReadEvent),
        readLoop st (ReadEvent.eof :: rest) = readLoop st rest) ∧
    (∀ (st : LoopState) (b : Bool) (rest : List ReadEvent),
        readLoop st (ReadEvent.ioFailure b :: rest) = (st, [], true)) ∧
    retryDelaySecs = 5 :=
  ⟨fun _ _ => rfl, fun _ _ _ => rfl, rfl⟩

/-- C4: malformed lines produce no record and are dropped by themselves — a
`SENSOR_DATA` line of wrong arity or with an unparsable field, a
`RELAY_STATUS` line of wrong arity, and a line carrying neither tag all parse
to `none` (the parsers are total, so no error is raised), and a line parsed
by neither parser leaves the read-loop state untouched and emits nothing, the
remaining lines being processed as if it were not there. -/
theorem malformed_lines_dropped :
    (∀ rest : List Char, (splitOnChar '|' rest).length ≠ 3 →
        parse_sensor_data (sensorTag ++ rest) = none) ∧
    (∀ (rest p0 p1 p2 : List Char), splitOnChar '|' rest = [p0, p1, p2] →
        (parseU64 p0 = none ∨ parseDecQ p1 = none ∨ parseDecQ p2 = none) →
        parse_sensor_data (sensorTag ++ rest) = none) ∧
    (∀ rest : List Char, (splitOnChar '|' rest).length ≠ 2 →
        parse_relay_status (relayTag ++ rest) = none) ∧
    (∀ l : List Char, dropTag? sensorTag l = none → dropTag? relayTag l = none →
        parse_sensor_data l = none ∧ parse_relay_status l = none) ∧
    (∀ (st : LoopState) (l : List Char) (rest : List ReadEvent),
        parse_relay_status (trimCL l) = none → parse_sensor_data (trimCL l) = none →
        readLoop st (ReadEvent.line l :: rest) = readLoop st rest) := by
  refine ⟨?_, ?_, ?_, ?_, ?_⟩
  · intro rest h
    simp only [parse_sensor_data, dropTag_append]
    rcases hs : splitOnChar '|' rest with _ | ⟨a, _ | ⟨b, _ | ⟨c, _ | ⟨d, tl⟩⟩⟩⟩ <;>
      simp_all
  · intro rest p0 p1 p2 hs hbad
    simp only [parse_sensor_data, dropTag_append]
    rcases h0 : parseU64 p0 with _ | t <;> rcases h1 : parseDecQ p1 with _ | x <;>
      rcases h2 : parseDecQ p2 with _ | y <;> simp_all
  · intro rest h
    simp only [parse_relay_status, dropTag_append]
    rcases hs : splitOnChar '|' rest with _ | ⟨a, _ | ⟨b, _ | ⟨c, tl⟩⟩⟩ <;> simp_all
  · intro l h1 h2
    exact ⟨parse_sensor_data_none_of_no_tag l h1, parse_relay_status_none_of_no_tag l h2⟩
  · intro st l rest h1 h2
    simp [readLoop_line, processLine_skip st l h1 h2]

/-- Witness for C4: wrong arity, a non-numeric field, a short relay line and
an untagged line are all dropped. -/
theorem malformed_lines_dropped_witness :
    parse_sensor_data (sensorTag ++ (("1|2").toList)) = none ∧
    parse_sensor_data (sensorTag ++ (("1|abc|3.0").toList)) = none ∧
    parse_relay_status (relayTag ++ (("motor:ON").toList)) = none ∧
    (parse_sensor_data (("hello world").toList) = none ∧
      parse_relay_status (("hello world").toList) = none) ∧
    readLoop initLoopState [ReadEvent.line (("hello world").toList)] =
      readLoop initLoopState [] :=
  ⟨malformed_lines_dropped.1 _ (by decide),
   malformed_lines_dropped.2.1 _ (("1").toList) (("abc").toList) (("3.0").toList)
     (by decide) (by decide),
   malformed_lines_dropped.2.2.1 _ (by decide),
   malformed_lines_dropped.2.2.2.1 _ (by decide) (by decide),
   malformed_lines_dropped.2.2.2.2 _ _ _ (by decide) (by decide)⟩

/-- C5: from the initial correlator state, a sensor line followed by a status
line invokes the consumer callback exactly twice — first with the reading
carrying absent relay status, then with the same reading carrying the parsed
status — and afterwards the pending reading is cleared (and the status is
retained as last-known). -/
theorem correlator_sensor_then_status
    (ta xa ya a b : List Char) (t : Nat) (x y : ℚ) (m p : Bool)
    (hta : '|' ∉ ta) (hxa : '|' ∉ xa) (hya : '|' ∉ ya) (ha : '|' ∉ a) (hb : '|' ∉ b)
    (wta : ∀ c ∈ ta, c.isWhitespace = false) (wxa : ∀ c ∈ xa, c.isWhitespace = false)
    (wya : ∀ c ∈ ya, c.isWhitespace = false) (wa : ∀ c ∈ a, c.isWhitespace = false)
    (wb : ∀ c ∈ b, c.isWhitespace = false)
    (ht : parseU64 ta = some t) (hx : parseDecQ xa = some x) (hy : parseDecQ ya = some y)
    (hm : (a == motorTag ++ onTok) = m) (hp : (b == pumpTag ++ onTok) = p) :
    readLoop initLoopState
        [ReadEvent.line (sensorTag ++ (ta ++ '|' :: (xa ++ '|' :: ya))),
         ReadEvent.line (relayTag ++ (a ++ '|' :: b))] =
      (⟨⟨some m, some p⟩, none⟩,
       [⟨t, x, y, none, none⟩, ⟨t, x, y, some m, some p⟩], false) := by
  have hrest1 : ∀ c ∈ (ta ++ '|' :: (xa ++ '|' :: ya)), c.isWhitespace = false := by
    intro c hc
    simp only [List.mem_append, List.mem_cons] at hc
    rcases hc with h | h | h | h | h
    · exact wta c h
    · subst h; decide
    · exact wxa c h
    · subst h; decide
    · exact wya c h
  have hrest2 : ∀ c ∈ (a ++ '|' :: b), c.isWhitespace = false := by
    intro c hc
    simp only [List.mem_append, List.mem_cons] at hc
    rcases hc with h | h | h
    · exact wa c h
    · subst h; decide
    · exact wb c h
  have htrim1 := trimCL_append_of_no_ws sensorTag (ta ++ '|' :: (xa ++ '|' :: ya))
    (by decide) hrest1
  have htrim2 := trimCL_append_of_no_ws relayTag (a ++ '|' :: b) (by decide) hrest2
  have hA1 : parse_relay_status (trimCL (sensorTag ++ (ta ++ '|' :: (xa ++ '|' :: ya)))) =
      none := by
    rw [htrim1]
    exact parse_relay_status_none_of_no_tag _ (dropTag_relay_sensor _)
  have hB1 : parse_sensor_data (trimCL (sensorTag ++ (ta ++ '|' :: (xa ++ '|' :: ya)))) =
      some ⟨t, x, y, none, none⟩ := by
    rw [htrim1]
    exact parse_sensor_line_eq ta xa ya t x y hta hxa hya ht hx hy
  have hA2 : parse_relay_status (trimCL (relayTag ++ (a ++ '|' :: b))) = some (m, p) := by
    rw [htrim2, parse_relay_line_eq a b ha hb, hm, hp]
  have hB2 : parse_sensor_data (trimCL (relayTag ++ (a ++ '|' :: b))) = none := by
    rw [htrim2]
    exact parse_sensor_data_none_of_no_tag _ (dropTag_sensor_relay _)
  have e1 : processLine initLoopState (sensorTag ++ (ta ++ '|' :: (xa ++ '|' :: ya))) =
      (⟨⟨none, none⟩, some ⟨t, x, y, none, none⟩⟩, [⟨t, x, y, none, none⟩]) := by
    rw [processLine_sensor initLoopState _ ⟨t, x, y, none, none⟩ hA1 hB1]
    rfl
  have e2 : processLine (⟨⟨none, none⟩, some ⟨t, x, y, none, none⟩⟩ : LoopState)
      (relayTag ++ (a ++ '|' :: b)) =
      (⟨⟨some m, some p⟩, none⟩, [⟨t, x, y, some m, some p⟩]) := by
    rw [processLine_relay_pending _ _ m p ⟨t, x, y, none, none⟩ hA2 rfl hB2]
  simp [readLoop_line, readLoop_nil, e1, e2]

/-- Witness for C5 at the concrete line pair `SENSOR_DATA|1|26.0|55.0`,
`RELAY_STATUS|motor:ON|pump:OFF`. -/
theorem correlator_sensor_then_status_witness :
    readLoop initLoopState
        [ReadEvent.line (sensorTag ++
          ((['1']) ++ '|' :: (('2' :: '6' :: '.' :: ['0']) ++ '|' ::
            ('5' :: '5' :: '.' :: ['0'])))),
         ReadEvent.line (relayTag ++
          ((("motor:ON").toList) ++ '|' :: (("pump:OFF").toList)))] =
      (⟨⟨some true, some false⟩, none⟩,
       [⟨1, 26, 55, none, none⟩, ⟨1, 26, 55, some true, some false⟩], false) :=
  correlator_sensor_then_status (['1']) ('2' :: '6' :: '.' :: ['0'])
    ('5' :: '5' :: '.' :: ['0']) (("motor:ON").toList) (("pump:OFF").toList)
    1 26 55 true false
    (by decide) (by decide) (by decide) (by decide) (by decide)
    (by decide) (by decide) (by decide) (by decide) (by decide)
    (by decide) (by decide) (by decide) (by decide) (by decide)

/-! Helper lemmas about the bridge-loop payload. -/

theorem mem_optEntry (k : String) (f : ℚ → JVal) (o : Option ℚ) (kv : String × JVal) :
    kv ∈ optEntry k f o ↔ ∃ v, o = some v ∧ kv = (k, f v) := by
  cases o <;> simp [optEntry]

theorem mem_fanEntries (st dt : Option ℚ) (kv : String × JVal) :
    kv ∈ fanEntries st dt ↔ ∃ s v, st = some s ∧ dt = some v ∧
      (kv = (("exhaust_fan_status"), JVal.int (if s > v then 1 else 0)) ∨
       kv = (("dwsim_temperature_setpoint"), JVal.num v)) := by
  cases st <;> cases dt <;> simp [fanEntries]

/-- C6: the payload carries a `pump_calculated_status` entry exactly when
humidity is present in the cycle's fused sensor sample, and that entry is
`1` iff humidity `< 60.0` (so `55.0` gives pump ON and `60.0` or anything
higher gives pump OFF). -/
theorem pump_derivation (sensor_data : LastRow) (dwsim_data : DwsimRow) :
    ((∃ v, (("pump_calculated_status"), v) ∈ buildPayload sensor_data dwsim_data) ↔
      sensor_data.hum.isSome = true) ∧
    (∀ h : ℚ, sensor_data.hum = some h →
      (("pump_calculated_status"), JVal.int (if h < 60 then 1 else 0)) ∈
        buildPayload sensor_data dwsim_data) ∧
    (sensor_data.hum = some 55 →
      (("pump_calculated_status"), JVal.int 1) ∈ buildPayload sensor_data dwsim_data) ∧
    (∀ h : ℚ, sensor_data.hum = some h → 60 ≤ h →
      (("pump_calculated_status"), JVal.int 0) ∈ buildPayload sensor_data dwsim_data) := by
  refine ⟨?_, ?_, ?_, ?_⟩
  · cases hh : sensor_data.hum with
    | none => simp [buildPayload, mem_optEntry, mem_fanEntries, hh]
    | some h => simp [buildPayload, mem_optEntry, mem_fanEntries, hh]
  · intro h hh
    simp [buildPayload, mem_optEntry, mem_fanEntries, hh]
  · intro hh
    simp [buildPayload, mem_optEntry, mem_fanEntries, hh, show (55 : ℚ) < 60 by norm_num]
  · intro h hh hge
    simp [buildPayload, mem_optEntry, mem_fanEntries, hh, not_lt.mpr hge]

/-- Witness for C6 at humidity 55.0 (ON), the boundary 60.0 (OFF) and
65.0 (OFF). -/
theorem pump_derivation_witness :
    (("pump_calculated_status"), JVal.int 1) ∈
      buildPayload ⟨none, some 55, none, none⟩ ⟨none⟩ ∧
    (("pump_calculated_status"), JVal.int 0) ∈
      buildPayload ⟨none, some 60, none, none⟩ ⟨none⟩ ∧
    (("pump_calculated_status"), JVal.int 0) ∈
      buildPayload ⟨none, some 65, none, none⟩ ⟨none⟩ :=
  ⟨(pump_derivation ⟨none, some 55, none, none⟩ ⟨none⟩).2.2.1 rfl,
   (pump_derivation ⟨none, some 60, none, none⟩ ⟨none⟩).2.2.2 60 rfl (by decide),
   (pump_derivation ⟨none, some 65, none, none⟩ ⟨none⟩).2.2.2 65 rfl (by decide)⟩

/-- C7: the payload carries an `exhaust_fan_status` entry exactly when both
the sensor temperature and the setpoint temperature are present this cycle;
the entry is `1` iff sensor temperature `>` setpoint, and it ships in the
same payload as the raw sensor temperature, the raw setpoint, and the
setpoint echo. -/
theorem fan_derivation (sensor_data : LastRow) (dwsim_data : DwsimRow) :
    ((∃ v, (("exhaust_fan_status"), v) ∈ buildPayload sensor_data dwsim_data) ↔
      (sensor_data.temp.isSome = true ∧ dwsim_data.temp.isSome = true)) ∧
    (∀ s v : ℚ, sensor_data.temp = some s → dwsim_data.temp = some v →
      (("exhaust_fan_status"), JVal.int (if s > v then 1 else 0)) ∈
        buildPayload sensor_data dwsim_data ∧
      (("sht20_temperature"), JVal.num s) ∈ buildPayload sensor_data dwsim_data ∧
      (("dwsim_temperature"), JVal.num v) ∈ buildPayload sensor_data dwsim_data ∧
      (("dwsim_temperature_setpoint"), JVal.num v) ∈ buildPayload sensor_data dwsim_data) := by
  constructor
  · cases hs : sensor_data.temp <;> cases hd : dwsim_data.temp <;>
      simp [buildPayload, mem_optEntry, mem_fanEntries, hs, hd]
  · intro s v hs hd
    refine ⟨?_, ?_, ?_, ?_⟩ <;> simp [buildPayload, mem_optEntry, mem_fanEntries, hs, hd]

/-- Witness for C7 at sensor temperature 26.0 and setpoint 24.0. -/
theorem fan_derivation_witness :
    (("exhaust_fan_status"), JVal.int (if (26 : ℚ) > 24 then 1 else 0)) ∈
      buildPayload ⟨some 26, none, none, none⟩ ⟨some 24⟩ ∧
    (("sht20_temperature"), JVal.num 26) ∈
      buildPayload ⟨some 26, none, none, none⟩ ⟨some 24⟩ ∧
    (("dwsim_temperature"), JVal.num 24) ∈
      buildPayload ⟨some 26, none, none, none⟩ ⟨some 24⟩ ∧
    (("dwsim_temperature_setpoint"), JVal.num 24) ∈
      buildPayload ⟨some 26, none, none, none⟩ ⟨some 24⟩ :=
  (fan_derivation ⟨some 26, none, none, none⟩ ⟨some 24⟩).2 26 24 rfl rfl

/-- C1 counterexample: with the sensor query returning temperature 26.0 and
humidity 55.0 but the setpoint (DWSIM) query failing, the bridge cycle does
not publish any payload — the `?` operator on the query propagates the error
out of the loop, refuting that the cycle proceeds with the sensor fields. -/
theorem setpoint_failure_aborts_cycle_cex :
    bridgeCycle (Except.ok ⟨some 26, some 55, none, none⟩)
        (Except.error ("Influx query FAILED")) =
      Except.error ("Influx query FAILED") := rfl

/-- C1 amended: a failure of either query is not caught inside the loop —
`get_last_data(..).await?` and `get_dwsim_temperature(..).await?` propagate
the error, aborting the cycle (and `main`) before any payload is assembled.
Only when the setpoint query succeeds while carrying no setpoint value does
the cycle behave as claimed: it publishes the sensor fields together with
`pump_on` (humidity 55.0 < 60.0 ⇒ 1) and omits any fan field. -/
theorem setpoint_failure_aborts_cycle_amended :
    (∀ (e : String) (row : LastRow),
        bridgeCycle (Except.ok row) (Except.error e) = Except.error e) ∧
    (∀ (e : String) (drow : DwsimRow),
        bridgeCycle (Except.error e) (Except.ok drow) = Except.error e) ∧
    bridgeCycle (Except.ok ⟨some 26, some 55, none, none⟩) (Except.ok ⟨none⟩) =
      Except.ok (some
        [(("sht20_temperature"), JVal.num 26), (("sht20_humidity"), JVal.num 55),
         (("pump_calculated_status"), JVal.int 1)]) :=
  ⟨fun _ _ => rfl, fun _ _ => rfl, by rfl⟩

/-! Helper lemmas about the CSV extractor. -/

theorem foldl_findCol_not_mem (target : List Char) :
    ∀ (cols : List (List Char)) (n : Nat) (init : Option Nat), target ∉ cols →
      (List.enumFrom n cols).foldl
        (fun acc ic => if ic.2 = target then some ic.1 else acc) init = init := by
  intro cols
  induction cols with
  | nil => intro n init _; rfl
  | cons c cs ih =>
    intro n init h
    have hc : c ≠ target := fun hh => h (hh ▸ List.mem_cons_self c cs)
    have hcs : target ∉ cs := fun hh => h (List.mem_cons_of_mem c hh)
    simp only [List.enumFrom, List.foldl_cons]
    rw [if_neg hc]
    exact ih (n + 1) init hcs

theorem findColIdx_not_mem (target : List Char) (init : Option Nat)
    (cols : List (List Char)) (h : target ∉ cols) :
    findColIdx target init cols = init := by
  unfold findColIdx
  rw [List.enum]
  exact foldl_findCol_not_mem target cols 0 init h

theorem csvStep_preserves_inv (st : CsvState) (l : List Char)
    (hb : hasBothCols l = false) (hi : CsvInv st) : CsvInv (csvStep st l) := by
  obtain ⟨hout, hcase⟩ := hi
  by_cases hh : l.head? = some '#'
  · simpa [csvStep, hh] using ⟨hout, hcase⟩
  · have hnb : ¬(fieldColName ∈ splitOnChar ',' l ∧ valueColName ∈ splitOnChar ',' l) := by
      simpa [hasBothCols] using hb
    rcases hcase with ⟨hs, hf, hv⟩ | ⟨hs, hfv⟩
    · by_cases hmem : (fieldColName ∈ splitOnChar ',' l ∨ valueColName ∈ splitOnChar ',' l)
      · rw [csvStep, if_neg hh]
        rw [if_pos ⟨by rw [hs], hmem⟩]
        refine ⟨hout, Or.inr ⟨rfl, ?_⟩⟩
        rcases not_and_or.mp hnb with hnf | hnv
        · exact Or.inl (by rw [findColIdx_not_mem _ _ _ hnf, hf])
        · exact Or.inr (by rw [findColIdx_not_mem _ _ _ hnv, hv])
      · rw [csvStep, if_neg hh, if_neg (by intro hcon; exact hmem hcon.2), if_neg (by rw [hs]; simp)]
        exact ⟨hout, Or.inl ⟨hs, hf, hv⟩⟩
    · rcases hfv with hf | hv
      · rw [csvStep, if_neg hh, if_neg (by intro hcon; rw [hs] at hcon; exact absurd hcon.1 (by simp)),
          if_pos hs]
        rw [hf]
        exact ⟨hout, Or.inr ⟨hs, Or.inl hf⟩⟩
      · rw [csvStep, if_neg hh, if_neg (by intro hcon; rw [hs] at hcon; exact absurd hcon.1 (by simp)),
          if_pos hs]
        rw [hv]
        rcases hfx : st.idx_field with _ | i
        · exact ⟨hout, Or.inr ⟨hs, Or.inr hv⟩⟩
        · exact ⟨hout, Or.inr ⟨hs, Or.inr hv⟩⟩

theorem csvFold_inv (lines : List (List Char)) :
    ∀ st : CsvState, CsvInv st → (∀ l ∈ lines, hasBothCols l = false) →
      CsvInv (lines.foldl csvStep st) := by
  induction lines with
  | nil =>
    intro st h _
    simpa using h
  | cons l ls ih =>
    intro st h hall
    rw [List.foldl_cons]
    exact ih _ (csvStep_preserves_inv st l (hall l (List.mem_cons_self _ _)) h)
      (fun x hx => hall x (List.mem_cons_of_mem _ hx))

theorem csvStep_unparsed_row (st : CsvState) (line : List Char) (i_f i_v : Nat)
    (fcol vcol : List Char)
    (hseen : st.header_seen = true)
    (hf : st.idx_field = some i_f) (hv : st.idx_value = some i_v)
    (hgf : (splitOnChar ',' line)[i_f]? = some fcol)
    (hgv : (splitOnChar ',' line)[i_v]? = some vcol)
    (hval : parseDecQ (trimCL vcol) = none) :
    csvStep st line = st := by
  by_cases hh : line.head? = some '#'
  · simp [csvStep, hh]
  · obtain ⟨f0, v0, hs0, out0⟩ := st
    simp only at hseen hf hv
    subst hseen
    subst hf
    subst hv
    simp [csvStep, assignField, hh, hgf, hgv, hval]

theorem csvStep_unknown_name (st : CsvState) (line : List Char) (i_f i_v : Nat)
    (fcol vcol : List Char)
    (hseen : st.header_seen = true)
    (hf : st.idx_field = some i_f) (hv : st.idx_value = some i_v)
    (hgf : (splitOnChar ',' line)[i_f]? = some fcol)
    (hgv : (splitOnChar ',' line)[i_v]? = some vcol)
    (hn1 : trimCL fcol ≠ ['t', 'e', 'm', 'p', 'e', 'r', 'a', 't', 'u', 'r', 'e'])
    (hn2 : trimCL fcol ≠ ['h', 'u', 'm', 'i', 'd', 'i', 't', 'y'])
    (hn3 : trimCL fcol ≠ ['e', 'x', 'h', 'a', 'u', 's', 't', '_', 'f', 'a', 'n', '_',
        's', 't', 'a', 't', 'u', 's'])
    (hn4 : trimCL fcol ≠ ['p', 'u', 'm', 'p', '_', 's', 't', 'a', 't', 'u', 's']) :
    csvStep st line = st := by
  by_cases hh : line.head? = some '#'
  · simp [csvStep, hh]
  · obtain ⟨f0, v0, hs0, out0⟩ := st
    simp only at hseen hf hv
    subst hseen
    subst hf
    subst hv
    rcases hpv : parseDecQ (trimCL vcol) with _ | v
    · simp [csvStep, assignField, hh, hgf, hgv, hpv]
    · simp [csvStep, assignField, hh, hgf, hgv, hpv, hn1, hn2, hn3, hn4]

/-- C8: the CSV extractor is total (it returns a `LastRow`, never an error)
and robust — when no line carries both header columns the result is
all-absent; the two-line example `_field,_value` / `temperature,23.45` yields
temperature 23.45; a data row whose value does not parse is skipped by itself
and extraction continues with the remaining rows; a recognized header
followed by an unknown field name leaves the output untouched; and a
non-numeric row between good rows only loses that one row. -/
theorem csv_extractor_robust :
    (∀ csv : List Char, (∀ l ∈ rustLines csv, hasBothCols l = false) →
        parse_influx_csv csv = ⟨none, none, none, none⟩) ∧
    parse_influx_csv (("_field,_value\ntemperature,23.45").toList) =
      ⟨some (Rat.divInt 2345 100), none, none, none⟩ ∧
    (∀ (st : CsvState) (line : List Char) (rest : List (List Char)) (i_f i_v : Nat)
        (fcol vcol : List Char), st.header_seen = true →
        st.idx_field = some i_f → st.idx_value = some i_v →
        (splitOnChar ',' line)[i_f]? = some fcol →
        (splitOnChar ',' line)[i_v]? = some vcol →
        parseDecQ (trimCL vcol) = none →
        (line :: rest).foldl csvStep st = rest.foldl csvStep st) ∧
    (∀ (st : CsvState) (line : List Char) (i_f i_v : Nat) (fcol vcol : List Char),
        st.header_seen = true → st.idx_field = some i_f → st.idx_value = some i_v →
        (splitOnChar ',' line)[i_f]? = some fcol →
        (splitOnChar ',' line)[i_v]? = some vcol →
        trimCL fcol ≠ ['t', 'e', 'm', 'p', 'e', 'r', 'a', 't', 'u', 'r', 'e'] →
        trimCL fcol ≠ ['h', 'u', 'm', 'i', 'd', 'i', 't', 'y'] →
        trimCL fcol ≠ ['e', 'x', 'h', 'a', 'u', 's', 't', '_', 'f', 'a', 'n', '_',
          's', 't', 'a', 't', 'u', 's'] →
        trimCL fcol ≠ ['p', 'u', 'm', 'p', '_', 's', 't', 'a', 't', 'u', 's'] →
        csvStep st line = st) ∧
    parse_influx_csv (("_field,_value\ntemperature,abc\nhumidity,50.5").toList) =
      ⟨none, some (Rat.divInt 505 10), none, none⟩ := by
  refine ⟨?_, by decide, ?_, ?_, by decide⟩
  · intro csv hall
    exact (csvFold_inv (rustLines csv) initCsvState ⟨rfl, Or.inl ⟨rfl, rfl, rfl⟩⟩ hall).1
  · intro st line rest i_f i_v fcol vcol hseen hf hv hgf hgv hval
    rw [List.foldl_cons, csvStep_unparsed_row st line i_f i_v fcol vcol hseen hf hv hgf hgv hval]
  · intro st line i_f i_v fcol vcol hseen hf hv hgf hgv hn1 hn2 hn3 hn4
    exact csvStep_unknown_name st line i_f i_v fcol vcol hseen hf hv hgf hgv hn1 hn2 hn3 hn4

/-- Witness for C8: a header-less body extracts to all-absent, an unparsable
row is a no-op step, and an unknown field name is a no-op step. -/
theorem csv_extractor_robust_witness :
    parse_influx_csv (("temperature,23.45").toList) = ⟨none, none, none, none⟩ ∧
    ((("temperature,abc").toList) :: ([] : List (List Char))).foldl csvStep
        ⟨some 0, some 1, true, ⟨none, none, none, none⟩⟩ =
      ([] : List (List Char)).foldl csvStep ⟨some 0, some 1, true, ⟨none, none, none, none⟩⟩ ∧
    csvStep ⟨some 0, some 1, true, ⟨none, none, none, none⟩⟩ (("foo,1.0").toList) =
      ⟨some 0, some 1, true, ⟨none, none, none, none⟩⟩ :=
  ⟨csv_extractor_robust.1 _ (by decide),
   csv_extractor_robust.2.2.1 _ _ [] 0 1 (("temperature").toList) (("abc").toList)
     rfl rfl rfl (by decide) (by decide) (by decide),
   csv_extractor_robust.2.2.2.1 _ _ 0 1 (("foo").toList) (("1.0").toList)
     rfl rfl rfl (by decide) (by decide) (by decide) (by decide) (by decide) (by decide)⟩

end RustDcs
